import Mathlib

/-
Verification of the cross-validation core of the verde repository
(verde/model_selection.py): the functions select, train_test_split,
cross_val_score and fit_score, together with the input normalizer
check_fit_input (from verde.base) and the immediate execution backend
DummyClient (from verde.utils), both consumed by this module.

Numpy arrays are modelled as a shape together with the flat row-major
element buffer; numpy fancy indexing of a one-dimensional array by an
integer index array is modelled including its acceptance of negative
indices, with an out-of-range index reported as a failure (IndexError).
External collaborators (the sklearn ShuffleSplit and KFold generators,
the dask client) enter as function parameters, matching the capability
interfaces the specification assigns to them.
-/

set_option synthInstance.maxSize 1024

namespace Verde

/-- A numpy ndarray: a shape and the flat row-major buffer of elements.
The numpy attribute size equals the number of stored elements, and ravel
returns the flat row-major buffer. -/
structure NDArray where
  shape : List Nat
  data : List Int
  deriving DecidableEq, Repr

/-- numpy ravel: the flattened, row-major view of the array. -/
def NDArray.ravel (a : NDArray) : List Int := a.data

/-- numpy size: the total number of elements of the array. -/
def NDArray.size (a : NDArray) : Nat := a.data.length

/-- numpy scalar indexing of a one-dimensional array: a nonnegative index
i is valid when i < n, a negative index i is valid when -n <= i and then
addresses position n + i, counted from the end; anything else is an
IndexError, reported as none. -/
def npGet (a : List Int) (i : Int) : Option Int :=
  if 0 ≤ i then
    if i < (a.length : Int) then a.get? i.toNat else none
  else
    if -(a.length : Int) ≤ i then a.get? (i + (a.length : Int)).toNat else none

/-- Sequence a list of optional results, failing when any element fails:
the shape of a loop whose body may raise. -/
def mapOption (f : α → Option β) : List α → Option (List β)
  | [] => some []
  | x :: xs =>
    match f x, mapOption f xs with
    | some y, some ys => some (y :: ys)
    | _, _ => none

/-- numpy fancy indexing of a one-dimensional array by an integer index
array: each index is resolved by npGet and the results form a fresh
one-dimensional array; any out-of-range index is an IndexError. -/
def npFancyIndex (a : List Int) (index : List Int) : Option (List Int) :=
  mapOption (npGet a) index

/-- A tuple of arrays as passed to select: each slot holds an array or
the absent marker None. -/
abbrev ArrTuple := List (Option NDArray)

/-- Embedding of select (model_selection.py lines 195-224): if the tuple
is itself None or any element is None, the whole tuple is returned as is;
otherwise every element is replaced by element.ravel()[index].  The outer
Option is the success layer: none is a raised IndexError. -/
def select (arrays : Option ArrTuple) (index : List Int) :
    Option (Option ArrTuple) :=
  match arrays with
  | none => some none
  | some arrs =>
    if arrs.any (fun i => i.isNone) then some (some arrs)
    else
      match mapOption
          (fun a =>
            match a with
            | none => none
            | some nd =>
              (npFancyIndex nd.ravel index).map
                (fun d => some (NDArray.mk [d.length] d)))
          arrs with
      | none => none
      | some res => some (some res)

/-- The data argument of the public entry points: a bare array or a tuple
of component arrays. -/
inductive DataInput where
  | single (a : NDArray)
  | multi (t : List NDArray)
  deriving DecidableEq

/-- The weights argument: absent, a bare array, or a tuple of component
arrays. -/
inductive WeightsInput where
  | none
  | single (a : NDArray)
  | multi (t : List NDArray)
  deriving DecidableEq

/-- The number of data components after normalization. -/
def DataInput.components : DataInput → Nat
  | .single _ => 1
  | .multi t => t.length

/-- Modelled from the spec: check_fit_input lives in verde.base, which is
not among the sources; section 4.1 of the spec defines it.  Given
coordinates (tuple of arrays), data (array or tuple of arrays) and
weights (absent, array, or tuple of arrays) it produces
(coordinates, data_tuple, weight_tuple) where data_tuple always has one
entry per component and weight_tuple either consists entirely of the
absent marker or mirrors the component count of data_tuple; it fails with
a validation error when component counts disagree or when flattened
lengths across coordinates, data and weights disagree. -/
def check_fit_input (coordinates : List NDArray) (data : DataInput)
    (weights : WeightsInput) :
    Option (List NDArray × List NDArray × ArrTuple) :=
  let dataT : List NDArray :=
    match data with
    | .single a => [a]
    | .multi t => t
  let weightsT? : Option ArrTuple :=
    match weights with
    | .none => some (List.replicate dataT.length Option.none)
    | .single a => if dataT.length = 1 then some [some a] else none
    | .multi t => if t.length = dataT.length then some (t.map some) else none
  match weightsT? with
  | none => none
  | some weightsT =>
    let sizes := coordinates.map NDArray.size ++ dataT.map NDArray.size
      ++ weightsT.filterMap (fun w => w.map NDArray.size)
    if sizes.all (fun s => s = sizes.headD 0) then
      some (coordinates, dataT, weightsT)
    else none

/-- The index sequence 0 .. n-1, as built by np.arange(ndata). -/
def npArange (n : Nat) : List Int := (List.range n).map Int.ofNat

/-- One train or test half of a fold: the three tuples returned by select
for coordinates, data and weights. -/
abbrev FoldData := Option ArrTuple × Option ArrTuple × Option ArrTuple

/-- Applying select to each of (coordinates, data, weights) with one
index array, as done per half of a split; a raised IndexError from any
of the three selections aborts. -/
def selectArgs (cs dt : List NDArray) (wt : ArrTuple) (index : List Int) :
    Option FoldData :=
  match select (some (cs.map some)) index,
      select (some (dt.map some)) index,
      select (some wt) index with
  | some c, some d, some w => some (c, d, w)
  | _, _, _ => none

/-- Embedding of train_test_split (model_selection.py lines 14-88).  The
external shuffle-based partition generator (sklearn ShuffleSplit) is a
capability parameter gen taking the forwarded keyword options, the forced
n_splits value and the index sequence, and yielding its list of
partitions; the code takes next() of it.  The result none covers every
raised error (validation, empty data tuple, StopIteration, IndexError). -/
def train_test_split (gen : κ → Nat → List Int → List (List Int × List Int))
    (opts : κ) (coordinates : List NDArray) (data : DataInput)
    (weights : WeightsInput) : Option (FoldData × FoldData) :=
  match check_fit_input coordinates data weights with
  | none => none
  | some (cs, dt, wt) =>
    match dt.head? with
    | none => none
    | some a0 =>
      match (gen opts 1 (npArange a0.size)).head? with
      | none => none
      | some split =>
        match selectArgs cs dt wt split.1, selectArgs cs dt wt split.2 with
        | some tr, some te => some (tr, te)
        | _, _ => none

/-- An estimator capability: fit consumes a train tuple and produces the
fitted internal state or fails; score consumes the fitted state and a
test tuple and produces a scalar score or fails. -/
structure Estimator (ε σ α : Type) where
  fit : FoldData → Except ε α
  score : α → FoldData → Except ε σ

/-- Embedding of fit_score (model_selection.py lines 187-192): fit the
estimator on the training data, then score it on the testing data; any
failure of either step propagates. -/
def fit_score (est : Estimator ε σ α) (train_data test_data : FoldData) :
    Except ε σ :=
  match est.fit train_data with
  | .error e => .error e
  | .ok fitted => est.score fitted test_data

/-- Modelled from the spec: DummyClient lives in verde.utils, which is
not among the sources; section 4.5 of the spec defines the immediate
backend: submit calls the callable synchronously on its arguments and
returns its result directly, catching nothing. -/
def DummyClient.submit (func : γ → Except ε σ) (args : γ) : Except ε σ :=
  func args

/-- The immediate backend applied to the fit-score unit of one fold, as
cross_val_score does with client.submit(fit_score, estimator, train, test)
when the client is the DummyClient. -/
def immediateSubmit (est : Estimator ε σ α) :
    FoldData → FoldData → Except ε σ :=
  fun train_data test_data =>
    DummyClient.submit (fun p => fit_score est p.1 p.2)
      (train_data, test_data)

/-- The errors a cross_val_score call can raise: a validation error from
the input normalizer, an IndexError from selection or an empty data
tuple, or a failure raised by the submitted work unit. -/
inductive PyErr (ε : Type) where
  | valueError
  | indexError
  | estError (e : ε)
  deriving DecidableEq

/-- One iteration of the scoring loop: build the train and test tuples by
selection, then submit the fit-score unit to the backend; a selection
IndexError propagates, and a failure of the submitted unit propagates
unchanged. -/
def foldScore (submit : FoldData → FoldData → Except ε ρ)
    (cs dt : List NDArray) (wt : ArrTuple) (fold : List Int × List Int) :
    Except (PyErr ε) ρ :=
  match selectArgs cs dt wt fold.1 with
  | none => .error .indexError
  | some tr =>
    match selectArgs cs dt wt fold.2 with
    | none => .error .indexError
    | some te => (submit tr te).mapError PyErr.estError

/-- The scoring loop over the folds yielded by the generator, appending
each result in order; the first failure aborts the loop. -/
def runFolds (submit : FoldData → FoldData → Except ε ρ)
    (cs dt : List NDArray) (wt : ArrTuple) :
    List (List Int × List Int) → Except (PyErr ε) (List ρ)
  | [] => .ok []
  | f :: rest =>
    match foldScore submit cs dt wt f with
    | .error e => .error e
    | .ok s =>
      match runFolds submit cs dt wt rest with
      | .error e => .error e
      | .ok ss => .ok (s :: ss)

/-- Embedding of cross_val_score (model_selection.py lines 91-184).  The
CV generator is a capability cv from the index sequence to the list of
(train, test) partitions it yields; the backend is the capability submit;
the estimator is folded into submit by the caller.  The sklearn KFold
default and the dask client default are external collaborators and enter
only through these parameters. -/
def cross_val_score (submit : FoldData → FoldData → Except ε ρ)
    (cv : List Int → List (List Int × List Int))
    (coordinates : List NDArray) (data : DataInput)
    (weights : WeightsInput) : Except (PyErr ε) (List ρ) :=
  match check_fit_input coordinates data weights with
  | none => .error .valueError
  | some (cs, dt, wt) =>
    match dt.head? with
    | none => .error .indexError
    | some a0 => runFolds submit cs dt wt (cv (npArange a0.size))

/-- Modelled from the spec: the partition produced by the external
sklearn ShuffleSplit generator with random_state fixed to the literal 0,
on the four-point index sequence, as recorded by the concrete scenario of
the spec (and by the doctest of train_test_split): train indices
[3, 1, 0], test index [2].  The options slot is Unit because the scenario
pins all options. -/
def shuffleSplitSeed0 : Unit → Nat → List Int → List (List Int × List Int) :=
  fun _ _ indices =>
    if indices = [0, 1, 2, 3] then [([3, 1, 0], [2])] else []

/-- The coordinates of the concrete scenario: ([0,1,2,3], [-4,-3,-2,-1]). -/
def coordsC4 : List NDArray :=
  [NDArray.mk [4] [0, 1, 2, 3], NDArray.mk [4] [-4, -3, -2, -1]]

/-- The data of the concrete scenario: ([1,3,5,7], [0,2,4,6]). -/
def dataC4 : DataInput :=
  .multi [NDArray.mk [4] [1, 3, 5, 7], NDArray.mk [4] [0, 2, 4, 6]]

/-- The weights of the concrete scenario: ([1,1,2,1], [1,2,1,1]). -/
def weightsC4 : WeightsInput :=
  .multi [NDArray.mk [4] [1, 1, 2, 1], NDArray.mk [4] [1, 2, 1, 1]]

/-- A one-point coordinate tuple used to exercise the entry points. -/
def coordsW : List NDArray := [NDArray.mk [1] [5]]

/-- A one-point single-component data argument. -/
def dataW : DataInput := .single (NDArray.mk [1] [7])

/-- A CV generator capability yielding two folds, each reusing the single
point for training and testing. -/
def cvW : List Int → List (List Int × List Int) :=
  fun _ => [([0], [0]), ([0], [0])]

/-- A CV generator capability yielding one fold. -/
def cvW1 : List Int → List (List Int × List Int) :=
  fun _ => [([0], [0])]

/-- A backend capability that scores every fold as 0. -/
def submitW : FoldData → FoldData → Except Unit Nat := fun _ _ => .ok 0

/-- A shuffle generator capability yielding the single partition
([0], [0]). -/
def genW : Unit → Nat → List Int → List (List Int × List Int) :=
  fun _ _ _ => [([0], [0])]

/-- An estimator whose fit always fails with the value 7. -/
def estFail : Estimator Nat Nat Unit :=
  { fit := fun _ => .error 7, score := fun _ _ => .ok 0 }

/-- The train half produced by genW on the one-point inputs. -/
def trW : FoldData :=
  (some [some (NDArray.mk [1] [5])], some [some (NDArray.mk [1] [7])],
    some [Option.none])

end Verde

namespace Verde

/-- C1: select on a tuple that is itself absent, or contains at least one
absent element, returns the input tuple unchanged for every index array,
raising nothing. -/
theorem select_passthrough (arrays : Option ArrTuple) (index : List Int)
    (h : arrays = none ∨
      ∃ t, arrays = some t ∧ t.any (fun i => i.isNone) = true) :
    select arrays index = some arrays := by
  rcases h with h | ⟨t, rfl, ht⟩
  · subst h; rfl
  · simp [select, ht]

/-- Witness for C1 at the tuple (None, array) and index [7]. -/
theorem select_passthrough_witness :
    select (some [Option.none, some (NDArray.mk [1] [5])]) [7] =
      some (some [Option.none, some (NDArray.mk [1] [5])]) :=
  select_passthrough _ [7] (Or.inr ⟨_, rfl, by decide⟩)

/-- Positional lookup agrees with the total lookup inside the bounds. -/
theorem get?_eq_some_getD (l : List Int) (n : Nat) (h : n < l.length) :
    l.get? n = some (l.getD n 0) := by
  rw [List.getD_eq_getElem?_getD, List.get?_eq_getElem?]
  cases hx : l[n]? with
  | none =>
    simp [List.getElem?_eq_none_iff] at hx
    omega
  | some v => rfl

/-- mapOption succeeds and maps pointwise when every element succeeds. -/
theorem mapOption_eq_map (f : α → Option β) (g : α → β) (l : List α)
    (h : ∀ x ∈ l, f x = some (g x)) : mapOption f l = some (l.map g) := by
  induction l with
  | nil => rfl
  | cons x xs ih =>
    rw [mapOption, h x (List.mem_cons_self x xs),
      ih (fun y hy => h y (List.mem_cons_of_mem x hy)), List.map_cons]

/-- A nonnegative in-range index reads the array at that position. -/
theorem npGet_nonneg (a : List Int) (i : Int) (h0 : 0 ≤ i)
    (h1 : i < (a.length : Int)) : npGet a i = some (a.getD i.toNat 0) := by
  have hlt : i.toNat < a.length := by omega
  rw [npGet, if_pos h0, if_pos h1, get?_eq_some_getD a i.toNat hlt]

/-- A negative index no smaller than -length reads the array at the
position counted from the end. -/
theorem npGet_neg (a : List Int) (i : Int) (h0 : -(a.length : Int) ≤ i)
    (h1 : i < 0) :
    npGet a i = some (a.getD (i + (a.length : Int)).toNat 0) := by
  have hnot : ¬ 0 ≤ i := by omega
  have hlt : (i + (a.length : Int)).toNat < a.length := by omega
  rw [npGet, if_neg hnot, if_pos h0,
    get?_eq_some_getD a (i + (a.length : Int)).toNat hlt]

/-- When every component array fancy-indexes successfully, select maps
each component of an all-present tuple to a fresh one-dimensional array
holding the selected elements. -/
theorem select_all_some (arrs : List NDArray) (idx : List Int)
    (g : NDArray → List Int)
    (hg : ∀ a ∈ arrs, npFancyIndex a.ravel idx = some (g a))
    (hlen : ∀ a ∈ arrs, (g a).length = idx.length) :
    select (some (arrs.map some)) idx =
      some (some (arrs.map (fun a =>
        some (NDArray.mk [idx.length] (g a))))) := by
  have hany : (arrs.map some).any (fun i => i.isNone) = false := by
    simp [List.any_map, Function.comp]
  have hmap : mapOption
      (fun a =>
        match a with
        | none => none
        | some nd =>
          (npFancyIndex nd.ravel idx).map
            (fun d => some (NDArray.mk [d.length] d)))
      (arrs.map some) =
      some (arrs.map (fun a => some (NDArray.mk [idx.length] (g a)))) := by
    have := mapOption_eq_map
      (fun a =>
        match a with
        | none => none
        | some nd =>
          (npFancyIndex nd.ravel idx).map
            (fun d => some (NDArray.mk [d.length] d)))
      (fun x => x.map (fun a => NDArray.mk [idx.length] (g a)))
      (arrs.map some) ?_
    · rw [this, List.map_map]
      rfl
    · intro x hx
      obtain ⟨a, ha, rfl⟩ := List.mem_map.mp hx
      simp [hg a ha, hlen a ha]
  rw [select, if_neg (by simp [hany]), hmap]

/-- C2: for a tuple of non-absent arrays and a valid index array, select
returns a tuple of the same arity whose component for each array a is the
array of elements of a.ravel() at the positions of idx. -/
theorem select_indexing (arrs : List NDArray) (idx : List Int)
    (h : ∀ a ∈ arrs, ∀ i ∈ idx, 0 ≤ i ∧ i < (a.ravel.length : Int)) :
    select (some (arrs.map some)) idx =
      some (some (arrs.map (fun a =>
        some (NDArray.mk [idx.length]
          (idx.map (fun i => a.ravel.getD i.toNat 0)))))) := by
  refine select_all_some arrs idx _ (fun a ha => ?_) (fun a ha => by simp)
  exact mapOption_eq_map _ _ idx
    (fun i hi => npGet_nonneg a.ravel i (h a ha i hi).1 (h a ha i hi).2)

/-- Witness for C2 on the tuple (array([10, 20]),) with index [1, 0]. -/
theorem select_indexing_witness :
    select (some [some (NDArray.mk [2] [10, 20])]) [1, 0] =
      some (some [some (NDArray.mk [2] [20, 10])]) := by
  have h := select_indexing [NDArray.mk [2] [10, 20]] [1, 0] (by decide)
  exact h

/-- C10: select validates nothing about the sign of its indices: on a
tuple of non-absent arrays of flattened length n, an index array of
negative indices drawn from [-n, 0) is accepted without error and each
component selects the elements counted from the end of the flattened
array. -/
theorem select_negative_index (arrs : List NDArray) (n : Nat)
    (idx : List Int) (hn : ∀ a ∈ arrs, a.ravel.length = n)
    (hneg : ∀ i ∈ idx, -(n : Int) ≤ i ∧ i < 0) :
    select (some (arrs.map some)) idx =
      some (some (arrs.map (fun a =>
        some (NDArray.mk [idx.length]
          (idx.map (fun i => a.ravel.getD (i + (n : Int)).toNat 0)))))) := by
  refine select_all_some arrs idx _ (fun a ha => ?_) (fun a ha => by simp)
  refine mapOption_eq_map _ _ idx (fun i hi => ?_)
  rw [npGet_neg a.ravel i (by rw [hn a ha]; exact (hneg i hi).1)
    (hneg i hi).2, hn a ha]

/-- Witness for C10 on the tuple (array([10, 20]),) with the negative
index array [-1, -2]: accepted, selecting [20, 10]. -/
theorem select_negative_index_witness :
    select (some [some (NDArray.mk [2] [10, 20])]) [-1, -2] =
      some (some [some (NDArray.mk [2] [20, 10])]) := by
  have h := select_negative_index [NDArray.mk [2] [10, 20]] 2 [-1, -2]
    (by decide) (by decide)
  exact h

/-- C4: on the concrete scenario of the spec, with the seed fixed to 0,
train_test_split yields train coordinates ([3,1,0], [-1,-3,-4]), train
data ([7,3,1], [6,2,0]), train weights ([1,1,1], [1,2,1]), test
coordinates ([2], [-2]), test data ([5], [4]) and test weights
([2], [1]). -/
theorem train_test_split_scenario :
    train_test_split shuffleSplitSeed0 () coordsC4 dataC4 weightsC4 =
      some
        ((some [some (NDArray.mk [3] [3, 1, 0]),
            some (NDArray.mk [3] [-1, -3, -4])],
          some [some (NDArray.mk [3] [7, 3, 1]),
            some (NDArray.mk [3] [6, 2, 0])],
          some [some (NDArray.mk [3] [1, 1, 1]),
            some (NDArray.mk [3] [1, 2, 1])]),
         (some [some (NDArray.mk [1] [2]), some (NDArray.mk [1] [-2])],
          some [some (NDArray.mk [1] [5]), some (NDArray.mk [1] [4])],
          some [some (NDArray.mk [1] [2]), some (NDArray.mk [1] [1])])) := by
  decide

/-- A successful scoring loop returns one result per fold, in order, each
being exactly the outcome of its own fold. -/
theorem runFolds_ok (submit : FoldData → FoldData → Except ε ρ)
    (cs dt : List NDArray) (wt : ArrTuple)
    (folds : List (List Int × List Int)) (scores : List ρ)
    (h : runFolds submit cs dt wt folds = .ok scores) :
    scores.length = folds.length ∧
      ∀ k, (folds.get? k).map (foldScore submit cs dt wt) =
        (scores.get? k).map Except.ok := by
  induction folds generalizing scores with
  | nil =>
    rw [runFolds] at h
    cases h
    exact ⟨rfl, fun k => rfl⟩
  | cons f rest ih =>
    rw [runFolds] at h
    cases hf : foldScore submit cs dt wt f with
    | error e => rw [hf] at h; cases h
    | ok s =>
      rw [hf] at h
      cases hr : runFolds submit cs dt wt rest with
      | error e => rw [hr] at h; cases h
      | ok ss =>
        rw [hr] at h
        cases h
        obtain ⟨ih1, ih2⟩ := ih ss hr
        refine ⟨by simp [ih1], fun k => ?_⟩
        cases k with
        | zero => simp [hf]
        | succ k => simpa using ih2 k

/-- C3: a successful cross_val_score call returns one score per fold
yielded by the CV generator on the index sequence, and the score in
position k is exactly what the backend returned for the k-th yielded
fold. -/
theorem cross_val_score_order (submit : FoldData → FoldData → Except ε ρ)
    (cv : List Int → List (List Int × List Int))
    (c : List NDArray) (d : DataInput) (w : WeightsInput)
    (cs dt : List NDArray) (wt : ArrTuple) (a0 : NDArray) (scores : List ρ)
    (hcfi : check_fit_input c d w = some (cs, dt, wt))
    (hd : dt.head? = some a0)
    (h : cross_val_score submit cv c d w = .ok scores) :
    scores.length = (cv (npArange a0.size)).length ∧
      ∀ k, ((cv (npArange a0.size)).get? k).map (foldScore submit cs dt wt) =
        (scores.get? k).map Except.ok := by
  simp only [cross_val_score, hcfi, hd] at h
  exact runFolds_ok submit cs dt wt _ scores h

/-- Witness for C3: the two-fold generator cvW on the one-point dataset
yields the two scores [0, 0] in fold order. -/
theorem cross_val_score_order_witness :
    ([0, 0] : List Nat).length = (cvW (npArange 1)).length ∧
      ((cvW (npArange 1)).get? 1).map
          (foldScore submitW coordsW [NDArray.mk [1] [7]] [Option.none]) =
        (([0, 0] : List Nat).get? 1).map Except.ok :=
  ⟨(cross_val_score_order submitW cvW coordsW dataW .none coordsW
      [NDArray.mk [1] [7]] [Option.none] (NDArray.mk [1] [7]) [0, 0]
      rfl rfl rfl).1,
   (cross_val_score_order submitW cvW coordsW dataW .none coordsW
      [NDArray.mk [1] [7]] [Option.none] (NDArray.mk [1] [7]) [0, 0]
      rfl rfl rfl).2 1⟩

/-- C7: train_test_split computes the dataset size as the size of the
first entry of the normalized data tuple, builds the index sequence
0..n-1, and consumes exactly the first partition of the generator, which
receives the caller options verbatim but n_splits forced to 1; the two
halves of that single partition are then applied by selection. -/
theorem train_test_split_structure
    (gen : κ → Nat → List Int → List (List Int × List Int)) (opts : κ)
    (c : List NDArray) (d : DataInput) (w : WeightsInput)
    (cs dt : List NDArray) (wt : ArrTuple) (a0 : NDArray)
    (hcfi : check_fit_input c d w = some (cs, dt, wt))
    (hd : dt.head? = some a0) :
    train_test_split gen opts c d w =
      match (gen opts 1 (npArange a0.size)).head? with
      | none => none
      | some split =>
        match selectArgs cs dt wt split.1, selectArgs cs dt wt split.2 with
        | some tr, some te => some (tr, te)
        | _, _ => none := by
  simp only [train_test_split, hcfi, hd]

/-- Witness for C7 at the one-point inputs and the generator genW. -/
theorem train_test_split_structure_witness :
    train_test_split genW () coordsW dataW .none =
      match (genW () 1 (npArange (NDArray.size (NDArray.mk [1] [7])))).head? with
      | none => none
      | some split =>
        match selectArgs coordsW [NDArray.mk [1] [7]] [Option.none] split.1,
            selectArgs coordsW [NDArray.mk [1] [7]] [Option.none] split.2 with
        | some tr, some te => some (tr, te)
        | _, _ => none :=
  train_test_split_structure genW () coordsW dataW .none coordsW
    [NDArray.mk [1] [7]] [Option.none] (NDArray.mk [1] [7]) rfl rfl

/-- select passes an all-absent weight tuple through unchanged, for every
component count (the empty tuple passes through trivially as well). -/
theorem select_replicate_none (k : Nat) (idx : List Int) :
    select (some (List.replicate k Option.none)) idx =
      some (some (List.replicate k Option.none)) := by
  cases k with
  | zero => rfl
  | succ k => rfl

/-- The weights half of a successful selectArgs application is the result
of select on the weight tuple. -/
theorem selectArgs_weights (cs dt : List NDArray) (wt : ArrTuple)
    (idx : List Int) (v : FoldData) (h : selectArgs cs dt wt idx = some v) :
    select (some wt) idx = some v.2.2 := by
  rw [selectArgs] at h
  cases hc : select (some (cs.map some)) idx with
  | none => rw [hc] at h; cases h
  | some cv =>
    rw [hc] at h
    cases hdv : select (some (dt.map some)) idx with
    | none => rw [hdv] at h; cases h
    | some dv =>
      rw [hdv] at h
      cases hw : select (some wt) idx with
      | none => rw [hw] at h; cases h
      | some wv =>
        rw [hw] at h
        cases h
        rfl

/-- When the weights argument is absent, the normalizer produces the
all-absent tuple with one slot per data component. -/
theorem check_fit_input_none_weights (c : List NDArray) (d : DataInput)
    (cs dt : List NDArray) (wt : ArrTuple)
    (h : check_fit_input c d .none = some (cs, dt, wt)) :
    wt = List.replicate d.components Option.none := by
  cases d with
  | single a =>
    simp only [check_fit_input, DataInput.components] at h ⊢
    split at h
    · simp only [Option.some.injEq, Prod.mk.injEq] at h
      exact h.2.2.symm
    · cases h
  | multi t =>
    simp only [check_fit_input, DataInput.components] at h ⊢
    split at h
    · simp only [Option.some.injEq, Prod.mk.injEq] at h
      exact h.2.2.symm
    · cases h

/-- C5: when weights is absent, the weights slot of both halves returned
by train_test_split is the all-absent marker tuple, unchanged by
selection. -/
theorem train_test_split_no_weights
    (gen : κ → Nat → List Int → List (List Int × List Int)) (opts : κ)
    (c : List NDArray) (d : DataInput) (tr te : FoldData)
    (h : train_test_split gen opts c d .none = some (tr, te)) :
    tr.2.2 = some (List.replicate d.components Option.none) ∧
      te.2.2 = some (List.replicate d.components Option.none) := by
  cases hcfi : check_fit_input c d .none with
  | none => simp [train_test_split, hcfi] at h
  | some args =>
    obtain ⟨cs, dt, wt⟩ := args
    have hw := check_fit_input_none_weights c d cs dt wt hcfi
    subst hw
    simp only [train_test_split, hcfi] at h
    cases hd : dt.head? with
    | none => simp [hd] at h
    | some a0 =>
      simp only [hd] at h
      cases hs : (gen opts 1 (npArange a0.size)).head? with
      | none => simp [hs] at h
      | some split =>
        simp only [hs] at h
        cases h1 : selectArgs cs dt (List.replicate d.components Option.none)
            split.1 with
        | none => simp [h1] at h
        | some trv =>
          simp only [h1] at h
          cases h2 : selectArgs cs dt
              (List.replicate d.components Option.none) split.2 with
          | none => simp [h2] at h
          | some tev =>
            simp only [h2, Option.some.injEq, Prod.mk.injEq] at h
            obtain ⟨htr, hte⟩ := h
            subst htr hte
            have e1 := selectArgs_weights cs dt _ split.1 trv h1
            have e2 := selectArgs_weights cs dt _ split.2 tev h2
            rw [select_replicate_none] at e1 e2
            simp only [Option.some.injEq] at e1 e2
            exact ⟨e1.symm, e2.symm⟩

/-- Witness for C5 on the one-point inputs with genW: both halves carry
the all-absent weight tuple (None,). -/
theorem train_test_split_no_weights_witness :
    trW.2.2 = some (List.replicate dataW.components Option.none) ∧
      trW.2.2 = some (List.replicate dataW.components Option.none) :=
  train_test_split_no_weights genW () coordsW dataW trW trW rfl

/-- C6: two train_test_split calls against the same partition generator
family with the same options (including the caller seed) and the same
coordinates, data and weights produce identical outputs. -/
theorem train_test_split_deterministic
    (gen : κ → Nat → List Int → List (List Int × List Int))
    (opts1 opts2 : κ) (c1 c2 : List NDArray) (d1 d2 : DataInput)
    (w1 w2 : WeightsInput) (ho : opts1 = opts2) (hc : c1 = c2)
    (hd : d1 = d2) (hw : w1 = w2) :
    train_test_split gen opts1 c1 d1 w1 =
      train_test_split gen opts2 c2 d2 w2 := by
  subst ho hc hd hw
  rfl

/-- Witness for C6 at the concrete scenario inputs with seed 0. -/
theorem train_test_split_deterministic_witness :
    train_test_split shuffleSplitSeed0 () coordsC4 dataC4 weightsC4 =
      train_test_split shuffleSplitSeed0 () coordsC4 dataC4 weightsC4 :=
  train_test_split_deterministic shuffleSplitSeed0 () () coordsC4 coordsC4
    dataC4 dataC4 weightsC4 weightsC4 rfl rfl rfl rfl

/-- An immediate-backend fold whose fit-score unit fails with e yields
the same failure, unchanged. -/
theorem foldScore_immediate_error (est : Estimator ε σ α)
    (cs dt : List NDArray) (wt : ArrTuple) (fold : List Int × List Int)
    (tr te : FoldData) (e : ε)
    (htr : selectArgs cs dt wt fold.1 = some tr)
    (hte : selectArgs cs dt wt fold.2 = some te)
    (herr : fit_score est tr te = .error e) :
    foldScore (immediateSubmit est) cs dt wt fold = .error (.estError e) := by
  rw [foldScore, htr, hte]
  show (immediateSubmit est tr te).mapError PyErr.estError = _
  rw [immediateSubmit]
  show (fit_score est tr te).mapError PyErr.estError = _
  rw [herr]
  rfl

/-- The scoring loop aborts with the failing fold error: every fold
before it succeeded, none after it runs. -/
theorem runFolds_error (submit : FoldData → FoldData → Except ε ρ)
    (cs dt : List NDArray) (wt : ArrTuple)
    (pre rest : List (List Int × List Int)) (fold : List Int × List Int)
    (err : PyErr ε)
    (hpre : ∀ f ∈ pre, ∃ s, foldScore submit cs dt wt f = .ok s)
    (hfold : foldScore submit cs dt wt fold = .error err) :
    runFolds submit cs dt wt (pre ++ fold :: rest) = .error err := by
  induction pre with
  | nil =>
    rw [List.nil_append, runFolds, hfold]
  | cons f fs ih =>
    obtain ⟨s, hs⟩ := hpre f (List.mem_cons_self f fs)
    have hrec := ih (fun g hg => hpre g (List.mem_cons_of_mem f hg))
    rw [List.cons_append, runFolds, hs, hrec]

/-- C8: under the immediate backend, a failure of the estimator fit or
score on some fold propagates unchanged to the caller of
cross_val_score, the earlier folds having run and the whole call
aborting with that very failure. -/
theorem cross_val_score_immediate_error (est : Estimator ε σ α)
    (cv : List Int → List (List Int × List Int))
    (c : List NDArray) (d : DataInput) (w : WeightsInput)
    (cs dt : List NDArray) (wt : ArrTuple) (a0 : NDArray)
    (pre rest : List (List Int × List Int)) (fold : List Int × List Int)
    (tr te : FoldData) (e : ε)
    (hcfi : check_fit_input c d w = some (cs, dt, wt))
    (hd : dt.head? = some a0)
    (hfolds : cv (npArange a0.size) = pre ++ fold :: rest)
    (hpre : ∀ f ∈ pre,
      ∃ s, foldScore (immediateSubmit est) cs dt wt f = .ok s)
    (htr : selectArgs cs dt wt fold.1 = some tr)
    (hte : selectArgs cs dt wt fold.2 = some te)
    (herr : fit_score est tr te = .error e) :
    cross_val_score (immediateSubmit est) cv c d w =
      .error (.estError e) := by
  simp only [cross_val_score, hcfi, hd, hfolds]
  exact runFolds_error (immediateSubmit est) cs dt wt pre rest fold _
    hpre (foldScore_immediate_error est cs dt wt fold tr te e htr hte herr)

/-- Witness for C8: the always-failing estimator estFail aborts the
one-fold cross-validation with its own error value 7. -/
theorem cross_val_score_immediate_error_witness :
    cross_val_score (immediateSubmit estFail) cvW1 coordsW dataW .none =
      .error (.estError 7) :=
  cross_val_score_immediate_error estFail cvW1 coordsW dataW .none coordsW
    [NDArray.mk [1] [7]] [Option.none] (NDArray.mk [1] [7]) [] []
    ([0], [0]) trW trW 7 rfl rfl rfl (by intro f hf; cases hf) rfl rfl rfl

end Verde
